import Mathlib

/-!
Shallow embedding of the browser-automation service in `src/main.py`:
the TTL cache (`Cache`), the browser/LLM resource pool (`ResourceManager`),
and the `/agents` request pipeline (`agents` handler), together with the
theorems checking the specification's claims about them.

Modelling conventions:
* a browser handle is an opaque `Nat`; `Browser(config=...)` constructs a
  fresh handle, modelled by a `next_id` counter;
* `time.time()` readings are explicit `Nat` parameters (`start_time`,
  `now`, `end_time`);
* Python exceptions are the inductive `PyErr`; the handler's `except`
  clauses become the status mapping `statusOf`;
* the external agent executor (`agent.run()` inside `asyncio.wait_for`)
  is a parameter `ExecOutcome`: it times out, raises, or returns an
  action history;
* the handler additionally returns a `Trace` of resource events so that
  ordering and cleanup claims can be stated.
-/

/-- Python exceptions raised/caught by `main.py`: `ValidationError`,
`ResourceError`, `TimeoutError` (the builtin alias of
`asyncio.TimeoutError` on the Python versions the project supports), and
a catch-all for any other exception. -/
inductive PyErr
  | validationError (msg : String)
  | resourceError (msg : String)
  | timeoutError (msg : String)
  | generic
deriving DecidableEq, Repr

/-- The in-memory TTL cache of `main.py` (`class Cache`), with keys the
strings `main.py` uses and values of type `ν`.  `data` maps a key to the
stored `(value, expiry)` pair, as in `self.data[key] = (value, expiry)`. -/
structure Cache (ν : Type) where
  data : String → Option (ν × Nat)

/-- `Cache.delete`: unconditional removal (`del self.data[key]`, guarded
by `if key in self.data`), a no-op when the key is absent. -/
def Cache.delete (c : Cache ν) (key : String) : Cache ν :=
  ⟨fun k => if k = key then none else c.data k⟩

/-- `Cache.get`: if the key is present and its expiry is strictly in the
future (`expiry > time.time()`) return the value; otherwise delete any
stale entry and return `None`.  Returns the result together with the
(possibly pruned) cache. -/
def Cache.get (c : Cache ν) (key : String) (now : Nat) : Option ν × Cache ν :=
  match c.data key with
  | some (value, expiry) =>
    if expiry > now then (some value, c)
    else (none, c.delete key)
  | none => (none, c)

/-- `Cache.set`: store `(value, time.time() + ttl)`, unconditionally
overwriting any existing entry. -/
def Cache.set (c : Cache ν) (key : String) (value : ν) (ttl : Nat) (now : Nat) : Cache ν :=
  ⟨fun k => if k = key then some (value, now + ttl) else c.data k⟩

/-- One derived action record appended by the result-extraction loop:
`{"selector": ..., "action": "click", "waitBefore": ..., "waitAfter": ...}`. -/
structure DerivedAction where
  selector : Option String
  action : String
  waitBefore : Nat
  waitAfter : Nat
deriving DecidableEq, Repr

/-- The `response_data` record built by the `/agents` handler. -/
structure ResponseData where
  task_id : String
  response : String
  url : String
  type : String
  request : String
  actions : List DerivedAction
  execution_time : Nat
deriving DecidableEq, Repr

/-- The `ResourceManager` of `main.py`: the registry of LLM client
instances (modelled by the set of registered model names), the browser
pool list, the capacity ceiling `MAX_BROWSER_INSTANCES`, the set of
browsers in use, and the cache.  `next_id` models the freshness of
`Browser(config=config)` construction. -/
structure ResourceManager where
  llm_instances : List String
  browser_pool : List Nat
  max_browsers : Nat
  browsers_in_use : Finset Nat
  cache : Cache ResponseData
  next_id : Nat

/-- The state of `ResourceManager()` before any acquisition: no browsers,
an empty cache, and a given capacity ceiling and LLM registry. -/
def ResourceManager.init (llms : List String) (maxBrowsers : Nat) : ResourceManager :=
  ⟨llms, [], maxBrowsers, ∅, ⟨fun _ => none⟩, 0⟩

/-- `ResourceManager.get_llm`: `self.llm_instances.get(model_name or default)`
— returns the registered client (modelled by its name) or `none`; never
raises. -/
def ResourceManager.get_llm (rm : ResourceManager) (model_name : Option String)
    (default_model : String) : Option String :=
  let name := match model_name with
    | none => default_model
    | some s => if s = "" then default_model else s
  if name ∈ rm.llm_instances then some name else none

/-- `ResourceManager.get_browser`: under the pool lock, scan the pool for
a browser not in use and mark it in-use; else, if the pool is below
`max_browsers`, construct a fresh browser, append it to the pool and mark
it in-use; else raise `ResourceError("No browser instances available")`. -/
def ResourceManager.get_browser (rm : ResourceManager) :
    Except PyErr (Nat × ResourceManager) :=
  match rm.browser_pool.find? (fun b => b ∉ rm.browsers_in_use) with
  | some b => .ok (b, { rm with browsers_in_use := insert b rm.browsers_in_use })
  | none =>
    if rm.browser_pool.length < rm.max_browsers then
      let b := rm.next_id
      .ok (b, { rm with
        browser_pool := rm.browser_pool ++ [b],
        browsers_in_use := insert b rm.browsers_in_use,
        next_id := rm.next_id + 1 })
    else
      .error (.resourceError "No browser instances available")

/-- `ResourceManager.release_browser`: under the pool lock, remove the
browser from the in-use set if it is there (`if browser in
self.browsers_in_use: remove`); a no-op otherwise. -/
def ResourceManager.release_browser (rm : ResourceManager) (browser : Nat) :
    ResourceManager :=
  if browser ∈ rm.browsers_in_use then
    { rm with browsers_in_use := rm.browsers_in_use.erase browser }
  else rm

/-- One pool operation of an acquire/release sequence. -/
inductive PoolOp
  | acquire
  | release (b : Nat)
deriving DecidableEq, Repr

/-- Apply one pool operation to the manager: an acquire that raises
`ResourceError` leaves the state as it was. -/
def ResourceManager.runOp (rm : ResourceManager) : PoolOp → ResourceManager
  | .acquire =>
    match rm.get_browser with
    | .ok (_, rm') => rm'
    | .error _ => rm
  | .release b => rm.release_browser b

/-- Apply a sequence of pool operations in order. -/
def ResourceManager.runOps (rm : ResourceManager) (ops : List PoolOp) : ResourceManager :=
  ops.foldl ResourceManager.runOp rm

/-- The pool bookkeeping invariant: every in-use browser is a pool
member and the pool never exceeds the capacity ceiling. -/
def poolInv (rm : ResourceManager) : Prop :=
  (∀ b ∈ rm.browsers_in_use, b ∈ rm.browser_pool) ∧
  rm.browser_pool.length ≤ rm.max_browsers

/-- The environment-derived configuration read by the `/agents` handler. -/
structure Config where
  enable_cache : Bool
  max_task_length : Nat
  cache_ttl : Nat
  wait_before_click : Nat
  wait_after_click : Nat
  default_model : String

/-- One entry of `history.model_actions()`: an optional navigation
(`action["go_to_url"]["url"]`), whether `"click_element" in action`, and
the (truthy) `interacted_element` with its optional `css_selector`. -/
structure HistAction where
  go_to_url : Option String
  click_element : Bool
  interacted_element : Option (Option String)
deriving DecidableEq, Repr

/-- One pass of the extraction loop over `history_actions`: update the
last-seen navigation URL, and append a derived click record when the
action is a click with a truthy `interacted_element`. -/
def extractStep (cfg : Config) (acc : String × List DerivedAction) (a : HistAction) :
    String × List DerivedAction :=
  let url := match a.go_to_url with
    | some u => u
    | none => acc.1
  let actions := if a.click_element then
      match a.interacted_element with
      | some sel =>
        acc.2 ++ [⟨sel, "click", cfg.wait_before_click, cfg.wait_after_click⟩]
      | none => acc.2
    else acc.2
  (url, actions)

/-- The handler's result-extraction loop: fold `extractStep` over the
action history starting from `url = ""` and `actions = []`. -/
def extractResults (cfg : Config) (hist : List HistAction) :
    String × List DerivedAction :=
  hist.foldl (extractStep cfg) ("", [])

/-- The URL of the last navigation action of a history (the given
default when there is none) — written from the spec's words, to be
compared with the extraction loop. -/
def lastNavUrl (hist : List HistAction) (dflt : String) : String :=
  ((hist.filterMap HistAction.go_to_url).getLast?).getD dflt

/-- One derived record per click action that names an interacted
element, in history order — written from the spec's words, to be
compared with the extraction loop. -/
def derivedActions (cfg : Config) (hist : List HistAction) : List DerivedAction :=
  hist.filterMap (fun a =>
    if a.click_element then
      a.interacted_element.map
        (fun sel => ⟨sel, "click", cfg.wait_before_click, cfg.wait_after_click⟩)
    else none)

/-- The POST body of an `/agents` request: whether the body is readable,
and the parsed `data.get("task")`. -/
structure Request where
  can_read_body : Bool
  task : Option String

/-- The outcome of the external agent invocation
(`asyncio.wait_for(agent.run(), timeout=...)`): the deadline fires, the
executor raises some other exception, or it returns an action history. -/
inductive ExecOutcome
  | timeout
  | failure
  | success (hist : List HistAction)
deriving DecidableEq, Repr

/-- Resource events of one `/agents` request, recorded in order. -/
inductive Event
  | acquireLlm (found : Bool)
  | acquireBrowser (b : Nat)
  | cacheLookup
  | runExecutor
  | releaseBrowser (b : Nat)
deriving DecidableEq, Repr

/-- `f"task_cache:{hash(task)}"`, with Python's `hash` as a parameter. -/
def cache_key (hashFn : String → Int) (task : String) : String :=
  "task_cache:" ++ toString (hashFn task)

/-- The status code each `except` clause of the `/agents` handler
responds with: `ValidationError` 400, `ResourceError` 503,
`asyncio.TimeoutError` 504, anything else 500. -/
def statusOf : PyErr → Nat
  | .validationError _ => 400
  | .resourceError _ => 503
  | .timeoutError _ => 504
  | .generic => 500

/-- The `try` block of the `/agents` handler: validation, resource
acquisition, cache check, bounded execution, extraction and cache store.
Returns the outcome (response data or exception), the manager state at
exit, the `browser` local (`none` until `get_browser` succeeds), and the
event trace.  The `finally` clause is applied by `agents` below. -/
def agentsBody (cfg : Config) (hashFn : String → Int) (rm : ResourceManager)
    (req : Request) (task_id : String) (start_time now end_time : Nat)
    (exec : ExecOutcome) :
    Except PyErr ResponseData × ResourceManager × Option Nat × List Event :=
  if req.can_read_body = false then
    (.error (.validationError "Missing request body"), rm, none, [])
  else match req.task with
  | none => (.error (.validationError "Missing task in request payload"), rm, none, [])
  | some task =>
  if task = "" then
    (.error (.validationError "Missing task in request payload"), rm, none, [])
  else if cfg.max_task_length < task.length then
    (.error (.validationError "Task exceeds maximum length"), rm, none, [])
  else
    let llm := rm.get_llm none cfg.default_model
    match rm.get_browser with
    | .error e => (.error e, rm, none, [.acquireLlm llm.isSome])
    | .ok (b, rm1) =>
      let tr := [Event.acquireLlm llm.isSome, Event.acquireBrowser b]
      let key := cache_key hashFn task
      let runExec : ResourceManager → List Event →
          Except PyErr ResponseData × ResourceManager × Option Nat × List Event :=
        fun rm2 tr2 =>
          match exec with
          | .timeout =>
            (.error (.timeoutError "Agent task execution timed out"), rm2, some b,
              tr2 ++ [.runExecutor])
          | .failure => (.error .generic, rm2, some b, tr2 ++ [.runExecutor])
          | .success hist =>
            let res := extractResults cfg hist
            let rd : ResponseData :=
              ⟨task_id, task, res.1, "browser-use", "dom", res.2, end_time - start_time⟩
            let rm3 := if cfg.enable_cache then
                { rm2 with cache := rm2.cache.set key rd cfg.cache_ttl end_time }
              else rm2
            (.ok rd, rm3, some b, tr2 ++ [.runExecutor])
      if cfg.enable_cache then
        match Cache.get rm1.cache key now with
        | (some cached, c2) =>
          (.ok cached, { rm1 with cache := c2 }, some b, tr ++ [.cacheLookup])
        | (none, c2) => runExec { rm1 with cache := c2 } (tr ++ [.cacheLookup])
      else runExec rm1 tr

/-- The response of one `/agents` request: the HTTP status, the
`{"data": ...}` payload on 200, the manager state afterwards, and the
event trace. -/
structure PipelineResult where
  status : Nat
  data : Option ResponseData
  rm : ResourceManager
  trace : List Event

/-- The whole `/agents` handler: run the `try` block, then the `finally`
clause (`if browser: release_browser(browser)`), then map the outcome
through the `except` clauses to a status. -/
def agents (cfg : Config) (hashFn : String → Int) (rm : ResourceManager)
    (req : Request) (task_id : String) (start_time now end_time : Nat)
    (exec : ExecOutcome) : PipelineResult :=
  let res := agentsBody cfg hashFn rm req task_id start_time now end_time exec
  let rm2 := match res.2.2.1 with
    | some b => res.2.1.release_browser b
    | none => res.2.1
  let tr := res.2.2.2 ++ match res.2.2.1 with
    | some b => [Event.releaseBrowser b]
    | none => []
  match res.1 with
  | .ok rd => ⟨200, some rd, rm2, tr⟩
  | .error e => ⟨statusOf e, none, rm2, tr⟩

/-! ## Concrete evaluation fixtures

Closed configurations, manager states and histories used by the
counterexamples and by the witnesses of the theorems below. -/

/-- A configuration with caching enabled (`ENABLE_CACHE=true`) and the
default limits. -/
def cfgW : Config := ⟨true, 1000, 3600, 1000, 1000, "gpt-4o"⟩

/-- A configuration with caching disabled (`ENABLE_CACHE=false`, the
source default). -/
def cfgWnc : Config := ⟨false, 1000, 3600, 700, 800, "gpt-4o"⟩

/-- A concrete stand-in for Python's `hash`. -/
def hashW : String → Int := fun _ => 0

/-- A concrete cached response record. -/
def r0W : ResponseData := ⟨"t0", "go", "", "browser-use", "dom", [], 5⟩

/-- A cache holding `r0W` under the key of task `"go"`, expiring at 100. -/
def cacheW : Cache ResponseData :=
  ⟨fun k => if k = "task_cache:0" then some (r0W, 100) else none⟩

/-- A fresh manager with one registered model and capacity 1, whose
cache holds `r0W`. -/
def rmW : ResourceManager := ⟨["gpt-4o"], [], 1, ∅, cacheW, 0⟩

/-- `rmW` after one browser acquisition. -/
def rmW1 : ResourceManager := ⟨["gpt-4o"], [0], 1, {0}, cacheW, 1⟩

/-- A fresh manager with one registered model and an empty cache. -/
def rmWe : ResourceManager := ⟨["gpt-4o"], [], 1, ∅, ⟨fun _ => none⟩, 0⟩

/-- `rmWe` after one browser acquisition. -/
def rmWe1 : ResourceManager := ⟨["gpt-4o"], [0], 1, {0}, ⟨fun _ => none⟩, 1⟩

/-- A fresh manager with no registered LLM client at all. -/
def rmWnl : ResourceManager := ⟨[], [], 1, ∅, ⟨fun _ => none⟩, 0⟩

/-- `rmWnl` after one browser acquisition. -/
def rmWnl1 : ResourceManager := ⟨[], [0], 1, {0}, ⟨fun _ => none⟩, 1⟩

/-- A history navigating to `https://a`, then to `https://b` with a
click on `#x`. -/
def histW : List HistAction :=
  [⟨some "https://a", false, none⟩, ⟨some "https://b", true, some (some "#x")⟩]

/-! ## Pool invariant lemmas -/

theorem get_browser_preserves_poolInv (rm rm' : ResourceManager) (b : Nat)
    (h : rm.get_browser = .ok (b, rm')) (hinv : poolInv rm) : poolInv rm' := by
  unfold ResourceManager.get_browser at h
  rcases hfind : rm.browser_pool.find? (fun b => b ∉ rm.browsers_in_use) with _ | b'
  · rw [hfind] at h
    by_cases hlen : rm.browser_pool.length < rm.max_browsers
    · rw [if_pos hlen] at h
      cases h
      refine ⟨?_, ?_⟩
      · intro x hx
        rcases Finset.mem_insert.mp hx with hx | hx
        · simp [hx]
        · simpa using Or.inl (hinv.1 x hx)
      · simpa using hlen
    · rw [if_neg hlen] at h
      cases h
  · rw [hfind] at h
    cases h
    have hmem : b ∈ rm.browser_pool := List.mem_of_find?_eq_some hfind
    refine ⟨?_, hinv.2⟩
    intro x hx
    rcases Finset.mem_insert.mp hx with hx | hx
    · exact hx ▸ hmem
    · exact hinv.1 x hx

theorem release_browser_preserves_poolInv (rm : ResourceManager) (b : Nat)
    (hinv : poolInv rm) : poolInv (rm.release_browser b) := by
  unfold ResourceManager.release_browser
  split
  · exact ⟨fun x hx => hinv.1 x (Finset.mem_of_mem_erase hx), hinv.2⟩
  · exact hinv

theorem runOp_preserves_poolInv (rm : ResourceManager) (op : PoolOp)
    (hinv : poolInv rm) : poolInv (rm.runOp op) := by
  cases op with
  | acquire =>
    unfold ResourceManager.runOp
    rcases h : rm.get_browser with e | ⟨b, rm'⟩
    · exact hinv
    · exact get_browser_preserves_poolInv rm rm' b h hinv
  | release b => exact release_browser_preserves_poolInv rm b hinv

theorem get_browser_max_browsers (rm rm' : ResourceManager) (b : Nat)
    (h : rm.get_browser = .ok (b, rm')) : rm'.max_browsers = rm.max_browsers := by
  unfold ResourceManager.get_browser at h
  rcases hfind : rm.browser_pool.find? (fun b => b ∉ rm.browsers_in_use) with _ | b'
  · rw [hfind] at h
    by_cases hlen : rm.browser_pool.length < rm.max_browsers
    · rw [if_pos hlen] at h
      cases h; rfl
    · rw [if_neg hlen] at h
      cases h
  · rw [hfind] at h
    cases h; rfl

theorem runOp_max_browsers (rm : ResourceManager) (op : PoolOp) :
    (rm.runOp op).max_browsers = rm.max_browsers := by
  cases op with
  | acquire =>
    simp only [ResourceManager.runOp]
    rcases h : rm.get_browser with e | ⟨b, rm'⟩
    · rfl
    · exact get_browser_max_browsers rm rm' b h
  | release b =>
    simp only [ResourceManager.runOp, ResourceManager.release_browser]
    split <;> rfl

theorem runOps_preserves_poolInv (rm : ResourceManager) (ops : List PoolOp)
    (hinv : poolInv rm) :
    poolInv (rm.runOps ops) ∧ (rm.runOps ops).max_browsers = rm.max_browsers := by
  induction ops generalizing rm with
  | nil => exact ⟨hinv, rfl⟩
  | cons op ops ih =>
    have h := ih (rm.runOp op) (runOp_preserves_poolInv rm op hinv)
    exact ⟨h.1, h.2.trans (runOp_max_browsers rm op)⟩

/-- C1: for every sequence of acquire/release calls starting from an
empty pool, the set of in-use browsers is a subset of the pool, and the
number of browsers simultaneously in-use never exceeds the configured
`max_browsers` capacity ceiling. -/
theorem in_use_subset_pool_and_bounded (llms : List String) (maxB : Nat)
    (ops : List PoolOp) :
    (∀ b ∈ ((ResourceManager.init llms maxB).runOps ops).browsers_in_use,
      b ∈ ((ResourceManager.init llms maxB).runOps ops).browser_pool) ∧
    ((ResourceManager.init llms maxB).runOps ops).browsers_in_use.card ≤ maxB := by
  have hinit : poolInv (ResourceManager.init llms maxB) := by
    constructor
    · intro b hb
      simp [ResourceManager.init] at hb
    · simp [ResourceManager.init]
  obtain ⟨⟨hsub, hlen⟩, hmax⟩ :=
    runOps_preserves_poolInv (ResourceManager.init llms maxB) ops hinit
  refine ⟨hsub, ?_⟩
  have h1 : ((ResourceManager.init llms maxB).runOps ops).browsers_in_use ⊆
      ((ResourceManager.init llms maxB).runOps ops).browser_pool.toFinset := by
    intro x hx
    exact List.mem_toFinset.mpr (hsub x hx)
  calc ((ResourceManager.init llms maxB).runOps ops).browsers_in_use.card
      ≤ ((ResourceManager.init llms maxB).runOps ops).browser_pool.toFinset.card :=
        Finset.card_le_card h1
    _ ≤ ((ResourceManager.init llms maxB).runOps ops).browser_pool.length :=
        List.toFinset_card_le _
    _ ≤ maxB := by rw [hmax] at hlen; simpa [ResourceManager.init] using hlen

/-- C3: when the pool holds `max_browsers` browsers and all of them are
in use, `get_browser` fails immediately with
`ResourceError("No browser instances available")` and, as a pool
operation, leaves the manager state (pool list and in-use set)
completely unchanged. -/
theorem acquire_at_capacity_fails_fast (rm : ResourceManager)
    (hfull : rm.browser_pool.length = rm.max_browsers)
    (hall : ∀ b ∈ rm.browser_pool, b ∈ rm.browsers_in_use) :
    rm.get_browser = .error (.resourceError "No browser instances available") ∧
    rm.runOp .acquire = rm := by
  have hfind : rm.browser_pool.find? (fun b => b ∉ rm.browsers_in_use) = none := by
    apply List.find?_eq_none.mpr
    intro x hx
    simp [hall x hx]
  have hget : rm.get_browser = .error (.resourceError "No browser instances available") := by
    unfold ResourceManager.get_browser
    rw [hfind]
    simp [hfull]
  refine ⟨hget, ?_⟩
  unfold ResourceManager.runOp
  rw [hget]

/-- Witness for C3 at a concrete one-browser pool with its browser in
use. -/
theorem acquire_at_capacity_fails_fast_witness :
    (ResourceManager.get_browser ⟨[], [5], 1, {5}, ⟨fun _ => none⟩, 6⟩)
      = .error (.resourceError "No browser instances available") ∧
    (ResourceManager.runOp ⟨[], [5], 1, {5}, ⟨fun _ => none⟩, 6⟩ .acquire)
      = ⟨[], [5], 1, {5}, ⟨fun _ => none⟩, 6⟩ :=
  acquire_at_capacity_fails_fast ⟨[], [5], 1, {5}, ⟨fun _ => none⟩, 6⟩
    (by decide) (by decide)

/-- C4: `Cache.get` returns the stored value exactly when an entry is
present whose expiry is strictly later than the current time; a stale
entry present at read time is removed by that read; and an entry set
with a positive TTL `t` is retrievable at the time it was set and is
absent (and removed) at any time strictly past `now + t`. -/
theorem cache_get_iff_live_and_ttl :
    (∀ (ν : Type) (c : Cache ν) (key : String) (now : Nat) (v : ν),
      (c.get key now).1 = some v ↔ ∃ e, c.data key = some (v, e) ∧ now < e) ∧
    (∀ (ν : Type) (c : Cache ν) (key : String) (now : Nat) (v : ν) (e : Nat),
      c.data key = some (v, e) → e ≤ now → ((c.get key now).2).data key = none) ∧
    (∀ (ν : Type) (c : Cache ν) (key : String) (v : ν) (t now : Nat),
      0 < t → ((c.set key v t now).get key now).1 = some v) ∧
    (∀ (ν : Type) (c : Cache ν) (key : String) (v : ν) (t now tLater : Nat),
      now + t < tLater →
        ((c.set key v t now).get key tLater).1 = none ∧
        ((c.set key v t now).get key tLater).2.data key = none) := by
  refine ⟨?_, ?_, ?_, ?_⟩
  · intro ν c key now v
    rcases h : c.data key with _ | ⟨v', e'⟩
    · simp [Cache.get, h]
    · by_cases he : e' > now
      · simp [Cache.get, h, he]
        constructor
        · rintro rfl
          exact ⟨e', ⟨rfl, rfl⟩, he⟩
        · rintro ⟨e, ⟨rfl, rfl⟩, _⟩
          rfl
      · simp [Cache.get, h, he]
        intro hv
        omega
  · intro ν c key now v e hdata hle
    have hn : ¬ e > now := by omega
    simp [Cache.get, hdata, hn, Cache.delete]
  · intro ν c key v t now ht
    have hg : now + t > now := by omega
    simp [Cache.get, Cache.set, hg]
  · intro ν c key v t now tLater hlt
    have hn : ¬ now + t > tLater := by omega
    simp [Cache.get, Cache.set, hn, Cache.delete]

/-- Witness for C4 at a concrete cache: an entry set at time 10 with
TTL 5 is retrievable at time 10, and is absent and removed at time 16;
the stale entry left in the cache is removed by the read. -/
theorem cache_get_iff_live_and_ttl_witness :
    (0 < 5 ∧
      ((Cache.set (⟨fun _ => none⟩ : Cache Nat) "k" 7 5 10).get "k" 10).1 = some 7) ∧
    ((10 + 5 < 16 ∧
      ((Cache.set (⟨fun _ => none⟩ : Cache Nat) "k" 7 5 10).get "k" 16).1 = none ∧
      ((Cache.set (⟨fun _ => none⟩ : Cache Nat) "k" 7 5 10).get "k" 16).2.data "k" = none)) ∧
    ((⟨fun k => if k = "k" then some (7, 3) else none⟩ : Cache Nat).data "k" = some (7, 3) ∧
      3 ≤ 10 ∧
      (((⟨fun k => if k = "k" then some (7, 3) else none⟩ : Cache Nat).get "k" 10)).2.data "k" = none) :=
  ⟨⟨by decide,
      cache_get_iff_live_and_ttl.2.2.1 Nat ⟨fun _ => none⟩ "k" 7 5 10 (by decide)⟩,
    ⟨by decide,
      cache_get_iff_live_and_ttl.2.2.2 Nat ⟨fun _ => none⟩ "k" 7 5 10 16 (by decide)⟩,
    ⟨by simp, by decide,
      cache_get_iff_live_and_ttl.2.1 Nat ⟨fun k => if k = "k" then some (7, 3) else none⟩
        "k" 10 7 3 (by simp) (by decide)⟩⟩

/-! ## Pipeline lemmas -/

theorem release_browser_not_mem (rm : ResourceManager) (b : Nat) :
    b ∉ (rm.release_browser b).browsers_in_use := by
  unfold ResourceManager.release_browser
  split
  next h => exact Finset.not_mem_erase b _
  next h => exact h

theorem get_browser_preserves_cache (rm rm' : ResourceManager) (b : Nat)
    (h : rm.get_browser = .ok (b, rm')) : rm'.cache = rm.cache := by
  unfold ResourceManager.get_browser at h
  rcases hfind : rm.browser_pool.find? (fun b => b ∉ rm.browsers_in_use) with _ | b'
  · rw [hfind] at h
    by_cases hlen : rm.browser_pool.length < rm.max_browsers
    · rw [if_pos hlen] at h
      cases h; rfl
    · rw [if_neg hlen] at h
      cases h
  · rw [hfind] at h
    cases h; rfl

theorem agentsBody_browser_trace (cfg : Config) (hashFn : String → Int)
    (rm : ResourceManager) (req : Request) (tid : String) (st now et : Nat)
    (exec : ExecOutcome) (b0 : Nat) :
    ((agentsBody cfg hashFn rm req tid st now et exec).2.2.2.count
        (Event.releaseBrowser b0) = 0) ∧
    ((agentsBody cfg hashFn rm req tid st now et exec).2.2.2.count
        (Event.acquireBrowser b0) =
      if (agentsBody cfg hashFn rm req tid st now et exec).2.2.1 = some b0
      then 1 else 0) := by
  unfold agentsBody
  repeat' split
  all_goals try simp_all [List.count_cons, List.count_append, List.count_nil]
  all_goals repeat' split
  all_goals simp_all [List.count_cons, List.count_append, List.count_nil]

theorem agentsBody_cache_hit (cfg : Config) (hashFn : String → Int)
    (rm rm1 : ResourceManager) (task : String) (b : Nat) (tid : String)
    (st now et : Nat) (exec : ExecOutcome) (r : ResponseData) (e : Nat)
    (hcache : cfg.enable_cache = true)
    (hne : task ≠ "") (hlen : task.length ≤ cfg.max_task_length)
    (hb : rm.get_browser = .ok (b, rm1))
    (hentry : rm.cache.data (cache_key hashFn task) = some (r, e))
    (hlive : now < e) :
    agentsBody cfg hashFn rm ⟨true, some task⟩ tid st now et exec =
      (.ok r, rm1, some b,
        [.acquireLlm (rm.get_llm none cfg.default_model).isSome,
         .acquireBrowser b, .cacheLookup]) := by
  have hc : rm1.cache = rm.cache := get_browser_preserves_cache rm rm1 b hb
  have hget : Cache.get rm1.cache (cache_key hashFn task) now = (some r, rm1.cache) := by
    rw [hc]
    simp [Cache.get, hentry, hlive]
  simp [agentsBody, hb, hcache, hget, hne, Nat.not_lt.mpr hlen]

theorem agentsBody_no_hit (cfg : Config) (hashFn : String → Int)
    (rm rm1 : ResourceManager) (task : String) (b : Nat) (tid : String)
    (st now et : Nat) (exec : ExecOutcome)
    (hne : task ≠ "") (hlen : task.length ≤ cfg.max_task_length)
    (hb : rm.get_browser = .ok (b, rm1))
    (hmiss : cfg.enable_cache = true →
      (Cache.get rm.cache (cache_key hashFn task) now).1 = none) :
    (agentsBody cfg hashFn rm ⟨true, some task⟩ tid st now et exec).1 =
      (match exec with
        | .timeout => .error (.timeoutError "Agent task execution timed out")
        | .failure => .error .generic
        | .success hist =>
          .ok ⟨tid, task, (extractResults cfg hist).1, "browser-use", "dom",
            (extractResults cfg hist).2, et - st⟩) ∧
    (agentsBody cfg hashFn rm ⟨true, some task⟩ tid st now et exec).2.2.1 = some b ∧
    (agentsBody cfg hashFn rm ⟨true, some task⟩ tid st now et exec).2.2.2 =
      [.acquireLlm (rm.get_llm none cfg.default_model).isSome, .acquireBrowser b]
        ++ (if cfg.enable_cache then [Event.cacheLookup] else []) ++ [.runExecutor] := by
  have hc : rm1.cache = rm.cache := get_browser_preserves_cache rm rm1 b hb
  by_cases hec : cfg.enable_cache
  · rcases hcg : Cache.get rm1.cache (cache_key hashFn task) now with ⟨o, c2⟩
    have ho : o = none := by
      have := hmiss hec
      rw [← hc] at this
      rw [hcg] at this
      exact this
    subst ho
    cases exec <;>
      simp [agentsBody, hb, hec, hcg, hne, Nat.not_lt.mpr hlen]
  · cases exec <;>
      simp [agentsBody, hb, hec, hne, Nat.not_lt.mpr hlen]

theorem extract_foldl (cfg : Config) (hist : List HistAction) :
    ∀ (u : String) (acc : List DerivedAction),
      hist.foldl (extractStep cfg) (u, acc) =
        (((hist.filterMap HistAction.go_to_url).getLast?).getD u,
          acc ++ derivedActions cfg hist) := by
  induction hist with
  | nil =>
    intro u acc
    simp [derivedActions]
  | cons a t ih =>
    intro u acc
    rcases a with ⟨go, click, ie⟩
    rcases go with _ | url <;> rcases click with _ | _ <;> rcases ie with _ | sel <;>
      simp [extractStep, derivedActions, List.filterMap_cons, ih, List.getLast?_cons]

theorem extractResults_spec (cfg : Config) (hist : List HistAction) :
    extractResults cfg hist = (lastNavUrl hist "", derivedActions cfg hist) := by
  unfold extractResults lastNavUrl
  rw [extract_foldl]
  simp

/-! ## Pipeline claims -/

/-- C2: on every exit path of the `/agents` handler — success, cache
hit, timeout, executor failure, unclassified error — the number of
release events for a browser in the request's trace equals the number of
acquire events for it (each at most one, so an acquired browser is
released exactly once), and an acquired browser is never left marked
in-use in the final manager state. -/
theorem session_released_exactly_once (cfg : Config) (hashFn : String → Int)
    (rm : ResourceManager) (req : Request) (tid : String) (st now et : Nat)
    (exec : ExecOutcome) (b0 : Nat) :
    (agents cfg hashFn rm req tid st now et exec).trace.count (Event.releaseBrowser b0) =
      (agents cfg hashFn rm req tid st now et exec).trace.count (Event.acquireBrowser b0) ∧
    (Event.acquireBrowser b0 ∈ (agents cfg hashFn rm req tid st now et exec).trace →
      b0 ∉ (agents cfg hashFn rm req tid st now et exec).rm.browsers_in_use) := by
  have hbody := agentsBody_browser_trace cfg hashFn rm req tid st now et exec b0
  unfold agents
  rcases hres : agentsBody cfg hashFn rm req tid st now et exec with ⟨out, rm1, bOpt, tr⟩
  rw [hres] at hbody
  simp only at hbody
  rcases bOpt with _ | b
  · simp only [if_neg (by simp : ¬ (none : Option Nat) = some b0)] at hbody
    cases out <;>
      simp_all [List.count_append, List.count_nil, List.count_eq_zero,
        List.count_eq_zero_of_not_mem]
  · by_cases hbb : b = b0
    · subst hbb
      simp only [if_pos rfl] at hbody
      cases out <;>
        simp_all [List.count_append, List.count_cons, List.count_nil,
          release_browser_not_mem]
    · simp only [if_neg (by simpa using hbb : ¬ (some b : Option Nat) = some b0)] at hbody
      cases out <;>
        simp_all [List.count_append, List.count_cons, List.count_nil,
          List.count_eq_zero, List.count_eq_zero_of_not_mem, Ne.symm hbb]

/-- Witness for C2 at a concrete cache-hit request that acquires
browser 0. -/
theorem session_released_exactly_once_witness :
    (agents cfgW hashW rmW ⟨true, some "go"⟩ "tid" 0 50 60 (.success [])).trace.count
        (Event.releaseBrowser 0) =
      (agents cfgW hashW rmW ⟨true, some "go"⟩ "tid" 0 50 60 (.success [])).trace.count
        (Event.acquireBrowser 0) ∧
    0 ∉ (agents cfgW hashW rmW ⟨true, some "go"⟩ "tid" 0 50 60 (.success [])).rm.browsers_in_use :=
  ⟨(session_released_exactly_once cfgW hashW rmW ⟨true, some "go"⟩ "tid" 0 50 60
      (.success []) 0).1,
   (session_released_exactly_once cfgW hashW rmW ⟨true, some "go"⟩ "tid" 0 50 60
      (.success []) 0).2 (by decide)⟩

/-- C5 counterexample: a request with caching enabled whose task hits a
live cache entry (the returned data is the cached record `r0W`), yet
whose event trace acquires the LLM client and the browser *before* the
cache lookup — contradicting both the claimed lookup-before-acquire
order and the claim that a hit returns without acquiring resources. -/
theorem cache_lookup_after_acquire_cex :
    (agents cfgW hashW rmW ⟨true, some "go"⟩ "tid" 0 50 60 (.success [])).data = some r0W ∧
    (agents cfgW hashW rmW ⟨true, some "go"⟩ "tid" 0 50 60 (.success [])).trace =
      [.acquireLlm true, .acquireBrowser 0, .cacheLookup, .releaseBrowser 0] := ⟨rfl, rfl⟩

/-- C5 (amended): with caching enabled, the handler acquires the LLM
client and a browser first and performs the cache lookup afterwards; on
a hit it returns the cached record without invoking the executor and
releases the acquired browser. -/
theorem acquire_then_cache_lookup_on_hit (cfg : Config) (hashFn : String → Int)
    (rm rm1 : ResourceManager) (task : String) (b : Nat) (tid : String)
    (st now et : Nat) (exec : ExecOutcome) (r : ResponseData) (e : Nat)
    (hcache : cfg.enable_cache = true)
    (hne : task ≠ "") (hlen : task.length ≤ cfg.max_task_length)
    (hb : rm.get_browser = .ok (b, rm1))
    (hentry : rm.cache.data (cache_key hashFn task) = some (r, e))
    (hlive : now < e) :
    (agents cfg hashFn rm ⟨true, some task⟩ tid st now et exec).trace =
      [.acquireLlm (rm.get_llm none cfg.default_model).isSome, .acquireBrowser b,
       .cacheLookup, .releaseBrowser b] ∧
    (agents cfg hashFn rm ⟨true, some task⟩ tid st now et exec).data = some r := by
  have hbody := agentsBody_cache_hit cfg hashFn rm rm1 task b tid st now et exec r e
    hcache hne hlen hb hentry hlive
  unfold agents
  rw [hbody]
  simp

/-- Witness for the amended C5 at the concrete cache-hit request. -/
theorem acquire_then_cache_lookup_on_hit_witness :
    (agents cfgW hashW rmW ⟨true, some "go"⟩ "tid" 0 50 60 (.success [])).trace =
      [.acquireLlm (rmW.get_llm none cfgW.default_model).isSome, .acquireBrowser 0,
       .cacheLookup, .releaseBrowser 0] ∧
    (agents cfgW hashW rmW ⟨true, some "go"⟩ "tid" 0 50 60 (.success [])).data = some r0W :=
  acquire_then_cache_lookup_on_hit cfgW hashW rmW rmW1 "go" 0 "tid" 0 50 60 (.success [])
    r0W 100 rfl (by decide) (by decide) rfl rfl (by decide)

/-- C6: with caching enabled, when the fingerprint of the submitted
task hits a live cache entry holding record `r`, the handler responds
200 with exactly `r` — every field, `task_id` and `execution_time`
included, is the stored record's — and never invokes the executor. -/
theorem cache_hit_returns_stored_record (cfg : Config) (hashFn : String → Int)
    (rm rm1 : ResourceManager) (task : String) (b : Nat) (tid : String)
    (st now et : Nat) (exec : ExecOutcome) (r : ResponseData) (e : Nat)
    (hcache : cfg.enable_cache = true)
    (hne : task ≠ "") (hlen : task.length ≤ cfg.max_task_length)
    (hb : rm.get_browser = .ok (b, rm1))
    (hentry : rm.cache.data (cache_key hashFn task) = some (r, e))
    (hlive : now < e) :
    (agents cfg hashFn rm ⟨true, some task⟩ tid st now et exec).status = 200 ∧
    (agents cfg hashFn rm ⟨true, some task⟩ tid st now et exec).data = some r ∧
    Event.runExecutor ∉ (agents cfg hashFn rm ⟨true, some task⟩ tid st now et exec).trace := by
  have hbody := agentsBody_cache_hit cfg hashFn rm rm1 task b tid st now et exec r e
    hcache hne hlen hb hentry hlive
  unfold agents
  rw [hbody]
  simp

/-- Witness for C6 at the concrete cache-hit request returning `r0W`. -/
theorem cache_hit_returns_stored_record_witness :
    (agents cfgW hashW rmW ⟨true, some "go"⟩ "tid" 0 50 60 (.success [])).status = 200 ∧
    (agents cfgW hashW rmW ⟨true, some "go"⟩ "tid" 0 50 60 (.success [])).data = some r0W ∧
    Event.runExecutor ∉
      (agents cfgW hashW rmW ⟨true, some "go"⟩ "tid" 0 50 60 (.success [])).trace :=
  cache_hit_returns_stored_record cfgW hashW rmW rmW1 "go" 0 "tid" 0 50 60 (.success [])
    r0W 100 rfl (by decide) (by decide) rfl rfl (by decide)

/-- C7: for every executor action history, the 200 response's record has
`url` equal to the URL of the last navigation action of the history
(empty if none), and `actions` equal to one derived record — element
selector, fixed kind `"click"`, configured pre/post waits — per click
action naming an interacted element, in history order. -/
theorem response_url_last_nav_actions_click (cfg : Config) (hashFn : String → Int)
    (rm rm1 : ResourceManager) (task : String) (b : Nat) (tid : String)
    (st now et : Nat) (hist : List HistAction)
    (hne : task ≠ "") (hlen : task.length ≤ cfg.max_task_length)
    (hb : rm.get_browser = .ok (b, rm1))
    (hmiss : cfg.enable_cache = true →
      (Cache.get rm.cache (cache_key hashFn task) now).1 = none) :
    (agents cfg hashFn rm ⟨true, some task⟩ tid st now et (.success hist)).status = 200 ∧
    (agents cfg hashFn rm ⟨true, some task⟩ tid st now et (.success hist)).data =
      some ⟨tid, task, lastNavUrl hist "", "browser-use", "dom",
        derivedActions cfg hist, et - st⟩ := by
  obtain ⟨h1, h2, h3⟩ := agentsBody_no_hit cfg hashFn rm rm1 task b tid st now et
    (.success hist) hne hlen hb hmiss
  unfold agents
  rcases hres : agentsBody cfg hashFn rm ⟨true, some task⟩ tid st now et (.success hist)
    with ⟨out, rmx, bOpt, tr⟩
  rw [hres] at h1 h2 h3
  dsimp only at h1 h2 h3
  rw [extractResults_spec] at h1
  dsimp only at h1
  subst h1 h2 h3
  simp

/-- Witness for C7 at a history navigating to `https://a` then
`https://b` with one click. -/
theorem response_url_last_nav_actions_click_witness :
    (agents cfgWnc hashW rmWe ⟨true, some "go"⟩ "tid" 0 50 60 (.success histW)).status = 200 ∧
    (agents cfgWnc hashW rmWe ⟨true, some "go"⟩ "tid" 0 50 60 (.success histW)).data =
      some ⟨"tid", "go", lastNavUrl histW "", "browser-use", "dom",
        derivedActions cfgWnc histW, 60 - 0⟩ :=
  response_url_last_nav_actions_click cfgWnc hashW rmWe rmWe1 "go" 0 "tid" 0 50 60 histW
    (by decide) (by decide) rfl (by decide)

/-- C8: a request whose task is missing, empty, or longer than the
configured maximum gets a `ValidationError` response (status 400) with
an empty resource-event trace — no client or browser was acquired — and
a completely unchanged resource manager. -/
theorem invalid_task_validation_400 (cfg : Config) (hashFn : String → Int)
    (rm : ResourceManager) (req : Request) (tid : String) (st now et : Nat)
    (exec : ExecOutcome)
    (h : req.task = none ∨ req.task = some "" ∨
      ∃ t, req.task = some t ∧ cfg.max_task_length < t.length) :
    (agents cfg hashFn rm req tid st now et exec).status = 400 ∧
    (agents cfg hashFn rm req tid st now et exec).trace = [] ∧
    (agents cfg hashFn rm req tid st now et exec).rm = rm := by
  have hbody : ∃ msg, agentsBody cfg hashFn rm req tid st now et exec =
      (.error (.validationError msg), rm, none, []) := by
    rcases req with ⟨crb, topt⟩
    cases crb
    · exact ⟨"Missing request body", by simp [agentsBody]⟩
    · rcases h with h | h | ⟨t, ht, hlen⟩
      · dsimp only at h
        subst h
        exact ⟨"Missing task in request payload", by simp [agentsBody]⟩
      · dsimp only at h
        subst h
        exact ⟨"Missing task in request payload", by simp [agentsBody]⟩
      · dsimp only at ht
        subst ht
        by_cases he : t = ""
        · exact ⟨"Missing task in request payload", by simp [agentsBody, he]⟩
        · exact ⟨"Task exceeds maximum length", by simp [agentsBody, he, hlen]⟩
  obtain ⟨msg, hbody⟩ := hbody
  unfold agents
  rw [hbody]
  simp [statusOf]

/-- Witness for C8 at a request with no task field. -/
theorem invalid_task_validation_400_witness :
    (agents cfgW hashW rmW ⟨true, none⟩ "tid" 0 50 60 .failure).status = 400 ∧
    (agents cfgW hashW rmW ⟨true, none⟩ "tid" 0 50 60 .failure).trace = [] ∧
    (agents cfgW hashW rmW ⟨true, none⟩ "tid" 0 50 60 .failure).rm = rmW :=
  invalid_task_validation_400 cfgW hashW rmW ⟨true, none⟩ "tid" 0 50 60 .failure (Or.inl rfl)

/-- C9: when the executor invocation exceeds its deadline, the handler
raises `TimeoutError("Agent task execution timed out")` — an exception
distinct from the generic catch-all — responds 504 (not the 500
catch-all), and still releases the acquired browser. -/
theorem timeout_maps_to_504_distinct (cfg : Config) (hashFn : String → Int)
    (rm rm1 : ResourceManager) (task : String) (b : Nat) (tid : String)
    (st now et : Nat)
    (hne : task ≠ "") (hlen : task.length ≤ cfg.max_task_length)
    (hb : rm.get_browser = .ok (b, rm1))
    (hmiss : cfg.enable_cache = true →
      (Cache.get rm.cache (cache_key hashFn task) now).1 = none) :
    (agentsBody cfg hashFn rm ⟨true, some task⟩ tid st now et .timeout).1 =
      .error (.timeoutError "Agent task execution timed out") ∧
    (agents cfg hashFn rm ⟨true, some task⟩ tid st now et .timeout).status = 504 ∧
    (agents cfg hashFn rm ⟨true, some task⟩ tid st now et .timeout).status ≠ 500 ∧
    Event.releaseBrowser b ∈
      (agents cfg hashFn rm ⟨true, some task⟩ tid st now et .timeout).trace := by
  obtain ⟨h1, h2, h3⟩ := agentsBody_no_hit cfg hashFn rm rm1 task b tid st now et
    .timeout hne hlen hb hmiss
  refine ⟨h1, ?_⟩
  unfold agents
  rcases hres : agentsBody cfg hashFn rm ⟨true, some task⟩ tid st now et .timeout
    with ⟨out, rmx, bOpt, tr⟩
  rw [hres] at h1 h2 h3
  simp only at h1 h2 h3
  subst h1 h2 h3
  simp [statusOf]

/-- Witness for C9 at a concrete timed-out request. -/
theorem timeout_maps_to_504_distinct_witness :
    (agentsBody cfgW hashW rmWe ⟨true, some "go"⟩ "tid" 0 50 60 .timeout).1 =
      .error (.timeoutError "Agent task execution timed out") ∧
    (agents cfgW hashW rmWe ⟨true, some "go"⟩ "tid" 0 50 60 .timeout).status = 504 ∧
    (agents cfgW hashW rmWe ⟨true, some "go"⟩ "tid" 0 50 60 .timeout).status ≠ 500 ∧
    Event.releaseBrowser 0 ∈
      (agents cfgW hashW rmWe ⟨true, some "go"⟩ "tid" 0 50 60 .timeout).trace :=
  timeout_maps_to_504_distinct cfgW hashW rmWe rmWe1 "go" 0 "tid" 0 50 60
    (by decide) (by decide) rfl (by decide)

/-- C10 counterexample: with no LLM client registered, `get_llm`
returns `none` without raising, yet the request does not fail with
`ResourceError`/503 — the handler proceeds, and the executor's generic
failure is mapped to the unclassified 500. -/
theorem missing_client_maps_to_500_cex :
    ResourceManager.get_llm rmWnl none "gpt-4o" = none ∧
    (agents cfgWnc hashW rmWnl ⟨true, some "go"⟩ "tid" 0 50 60 .failure).status = 500 ∧
    (agents cfgWnc hashW rmWnl ⟨true, some "go"⟩ "tid" 0 50 60 .failure).status ≠ 503 :=
  ⟨rfl, rfl, by decide⟩

/-- C10 (amended): `get_llm` returns a not-found `none` rather than
raising, but the handler never checks it: it still acquires a browser
and invokes the executor with the absent client, and a resulting
generic failure is mapped to the unclassified 500 — not to
`ResourceError`/503. -/
theorem missing_client_proceeds_500 (cfg : Config) (hashFn : String → Int)
    (rm rm1 : ResourceManager) (task : String) (b : Nat) (tid : String)
    (st now et : Nat)
    (hllm : cfg.default_model ∉ rm.llm_instances)
    (hne : task ≠ "") (hlen : task.length ≤ cfg.max_task_length)
    (hb : rm.get_browser = .ok (b, rm1))
    (hmiss : cfg.enable_cache = true →
      (Cache.get rm.cache (cache_key hashFn task) now).1 = none) :
    rm.get_llm none cfg.default_model = none ∧
    (agents cfg hashFn rm ⟨true, some task⟩ tid st now et .failure).status = 500 ∧
    (agents cfg hashFn rm ⟨true, some task⟩ tid st now et .failure).status ≠ 503 ∧
    Event.acquireBrowser b ∈
      (agents cfg hashFn rm ⟨true, some task⟩ tid st now et .failure).trace := by
  obtain ⟨h1, h2, h3⟩ := agentsBody_no_hit cfg hashFn rm rm1 task b tid st now et
    .failure hne hlen hb hmiss
  refine ⟨by simp [ResourceManager.get_llm, hllm], ?_⟩
  unfold agents
  rcases hres : agentsBody cfg hashFn rm ⟨true, some task⟩ tid st now et .failure
    with ⟨out, rmx, bOpt, tr⟩
  rw [hres] at h1 h2 h3
  simp only at h1 h2 h3
  subst h1 h2 h3
  simp [statusOf]

/-- Witness for the amended C10 at a manager with an empty client
registry. -/
theorem missing_client_proceeds_500_witness :
    ResourceManager.get_llm rmWnl none cfgWnc.default_model = none ∧
    (agents cfgWnc hashW rmWnl ⟨true, some "go"⟩ "tid" 0 50 60 .failure).status = 500 ∧
    (agents cfgWnc hashW rmWnl ⟨true, some "go"⟩ "tid" 0 50 60 .failure).status ≠ 503 ∧
    Event.acquireBrowser 0 ∈
      (agents cfgWnc hashW rmWnl ⟨true, some "go"⟩ "tid" 0 50 60 .failure).trace :=
  missing_client_proceeds_500 cfgWnc hashW rmWnl rmWnl1 "go" 0 "tid" 0 50 60
    (by decide) (by decide) (by decide) rfl (by decide)
